import Mathlib

/-!
# Image data source and provider configuration of the `quake` Terraform provider

Shallow embedding of `dataSourceImageRead` (`terraform/quake/datasource_images.go`)
and of the provider's `ConfigureFunc` (`terraform/quake/provider.go`).

Go's `error` is a `String`; a Go function that mutates `d` and returns an `error`
becomes a function returning the new `d` paired with `Option String`
(`none` is Go's `nil` error).

`getFilters`, the method `filter.match`, `NewConfig` and
`Config.refreshAvailableResources` are declared in files that are not part of the
sources at hand; every definition below takes them as parameters, and so does it with
the verdict of the SDK's `d.Set` on the image list.
-/

namespace quake

/-! ## Data model -/

/-- Modelled from the spec: the attribute-name constant `iFlavor`, declared outside
the sources at hand; the spec names the image attribute `flavor`. -/
def iFlavor : String := "flavor"

/-- Modelled from the spec: the attribute-name constant `iCategory`, declared outside
the sources at hand; the spec names the image attribute `category`. -/
def iCategory : String := "category"

/-- Modelled from the spec: the attribute-name constant `iVersion`, declared outside
the sources at hand; the spec names the image attribute `version`. -/
def iVersion : String := "version"

/-- One image of the inventory: the four fields `dataSourceImageRead` reads
(`image.Flavor`, `image.Category`, `image.Version`, `image.ID`). -/
structure Image where
  Flavor : String
  Category : String
  Version : String
  ID : String
deriving DecidableEq, Repr

/-- The inventory held by the configuration; only `Images` is read here. -/
structure AvailableResources where
  Images : List Image
deriving DecidableEq, Repr

/-- The provider configuration (`*Config`): the fields the two functions touch. -/
structure Config where
  PortalURL : String
  availableResources : AvailableResources
deriving DecidableEq, Repr

/-- Modelled from the spec: the type `filter`, declared outside the sources at hand.
The source reads its field `name`; the spec gives a predicate a name and a collection
of acceptable values. How a value is matched is left to the parameter `fmatch`. -/
structure filter where
  name : String
  values : List String
deriving DecidableEq, Repr

/-- The Go value `map[string]interface{}` built for one image, as its key/value pairs
in the order of the composite literal. -/
abbrev ImageData := List (String × String)

/-- The `*schema.ResourceData` of the image data source: the caller's raw filter
blocks (what `getFilters` reads), the computed list stored under `avImages`
(`none` while unset) and the id (`none` while unset). -/
structure ResourceData where
  dsFilter : List (String × List String)
  avImages : Option (List ImageData)
  id : Option String
deriving DecidableEq, Repr

/-! ## `dataSourceImageRead` -/

/-- The three flags of the loop body: `flavorMatch, categoryMatch, versionMatch`. -/
structure Flags where
  flavorMatch : Bool
  categoryMatch : Bool
  versionMatch : Bool
deriving DecidableEq, Repr

/-- One iteration of `for _, f := range filters`: each of the three `if` statements
clears its flag when `f` names the attribute and `f.match` rejects the image's value. -/
def flagStep (fmatch : filter → String → String → Bool) (image : Image)
    (fl : Flags) (f : filter) : Flags :=
  let fl1 : Flags :=
    if f.name == iFlavor && !(fmatch f iFlavor image.Flavor) then
      { fl with flavorMatch := false } else fl
  let fl2 : Flags :=
    if f.name == iCategory && !(fmatch f iCategory image.Category) then
      { fl1 with categoryMatch := false } else fl1
  let fl3 : Flags :=
    if f.name == iVersion && !(fmatch f iVersion image.Version) then
      { fl2 with versionMatch := false } else fl2
  fl3

/-- The inner loop over `filters`, started from `true, true, true`. -/
def matchFlags (fmatch : filter → String → String → Bool) (filters : List filter)
    (image : Image) : Flags :=
  filters.foldl (flagStep fmatch image) ⟨true, true, true⟩

/-- The condition of the `if` that appends the image:
`matched || (flavorMatch && categoryMatch && versionMatch)` with
`matched := (len(filters) == 0)`. -/
def imageMatches (fmatch : filter → String → String → Bool) (filters : List filter)
    (image : Image) : Bool :=
  let matched := filters.length == 0
  let fl := matchFlags fmatch filters image
  matched || (fl.flavorMatch && fl.categoryMatch && fl.versionMatch)

/-- The map literal `iData` built for a matching image. -/
def iData (image : Image) : ImageData :=
  [(iFlavor, image.Flavor), (iVersion, image.Version), (iCategory, image.Category),
   ("id", image.ID)]

/-- The loop `for _, image := range available.Images`: `getFilters(d)` is called anew
for every image and its error returned at once; a matching image is appended to
`images`. -/
def imagesLoop (getFilters : ResourceData → Except String (List filter))
    (fmatch : filter → String → String → Bool) (d : ResourceData) :
    List Image → List ImageData → Except String (List ImageData)
  | [], images => .ok images
  | image :: rest, images =>
    match getFilters d with
    | .error err => .error err
    | .ok filters =>
      if imageMatches fmatch filters image then
        imagesLoop getFilters fmatch d rest (images ++ [iData image])
      else
        imagesLoop getFilters fmatch d rest images

/-- The function `dataSourceImageRead(d, meta)`, with `p := meta.(*Config)`.
`setErr images` is the error `d.Set(avImages, images)` returns, if any. The result is
the resource data after the call together with the returned error. -/
def dataSourceImageRead (getFilters : ResourceData → Except String (List filter))
    (fmatch : filter → String → String → Bool)
    (setErr : List ImageData → Option String)
    (d : ResourceData) (p : Config) : ResourceData × Option String :=
  let available := p.availableResources
  match imagesLoop getFilters fmatch d available.Images [] with
  | .error err => (d, some err)
  | .ok images =>
    match setErr images with
    | some err => (d, some err)
    | none => ({ d with avImages := some images, id := some "images" }, none)

/-! ## Provider configuration -/

/-- The `*schema.ResourceData` of the provider block: the keys `gl_token` and
`portal_url` read and written by `ConfigureFunc`. -/
structure ProviderData where
  gl_token : Bool
  portal_url : String
deriving DecidableEq, Repr

set_option linter.unusedVariables false in
/-- The closure `provider.ConfigureFunc`. `NewConfig` and `refreshAvailableResources`
are parameters; the latter returns the configuration after the refresh and its error.
The result is the provider data after the call and the returned pair
`(interface{}, error)`, a `nil` configuration being `none`. The local
`terraformVersion` is computed and, as in the source, never used. -/
def ConfigureFunc (NewConfig : Bool → String → Except String Config)
    (refreshAvailableResources : Config → Config × Option String)
    (TerraformVersion : String) (d : ProviderData) :
    ProviderData × Option Config × Option String :=
  match NewConfig d.gl_token d.portal_url with
  | .error err => (d, none, some err)
  | .ok config =>
    let d1 : ProviderData := { d with portal_url := config.PortalURL }
    let terraformVersion :=
      if TerraformVersion == "" then "0.11+compatible" else TerraformVersion
    match refreshAvailableResources config with
    | (_, some err) => (d1, none, some err)
    | (config1, none) => (d1, some config1, none)

/-! ## Vocabulary used to state the properties -/

/-- The value an image carries for an attribute name (`""` for a name that is not an
image attribute). -/
def attrValue (a : String) (image : Image) : String :=
  if a = iFlavor then image.Flavor
  else if a = iCategory then image.Category
  else if a = iVersion then image.Version
  else ""

/-- A single predicate accepts an image: whenever it names one of the three image
attributes, `f.match` accepts the image's value for that attribute. -/
def filterOk (fmatch : filter → String → String → Bool) (image : Image) (f : filter) :
    Bool :=
  (!(f.name == iFlavor) || fmatch f iFlavor image.Flavor) &&
  (!(f.name == iCategory) || fmatch f iCategory image.Category) &&
  (!(f.name == iVersion) || fmatch f iVersion image.Version)

/-- Membership matching: a predicate matches a value when the value is one of its
`values`. -/
def memberMatch (f : filter) (_name : String) (value : String) : Bool :=
  decide (value ∈ f.values)

/-- The predicate names one of the three image attributes. -/
def knownName (f : filter) : Bool :=
  f.name == iFlavor || f.name == iCategory || f.name == iVersion

/-! ## Concrete data of the scenarios -/

/-- The first image of the scenarios. -/
def gpuImage : Image := ⟨"gpu", "compute", "1.0", "i1"⟩

/-- The second image of the scenarios. -/
def cpuImage : Image := ⟨"cpu", "compute", "1.0", "i2"⟩

/-- A configuration whose inventory holds the two images of the scenarios. -/
def scenarioConfig : Config := ⟨"https://portal", ⟨[gpuImage, cpuImage]⟩⟩

/-- A configuration whose inventory holds no image. -/
def emptyConfig : Config := ⟨"https://portal", ⟨[]⟩⟩

/-- Resource data before the read: nothing stored yet. -/
def freshData : ResourceData := ⟨[], none, none⟩

/-- The SDK accepting every list. -/
def setAlways (_images : List ImageData) : Option String := none

/-! ## Lemmas on the loops -/

theorem iFlavor_ne_iCategory : iFlavor ≠ iCategory := by decide
theorem iFlavor_ne_iVersion : iFlavor ≠ iVersion := by decide
theorem iCategory_ne_iVersion : iCategory ≠ iVersion := by decide

theorem flagStep_eq (fmatch : filter → String → String → Bool) (image : Image)
    (fl : Flags) (f : filter) :
    flagStep fmatch image fl f =
      ⟨fl.flavorMatch && (!(f.name == iFlavor) || fmatch f iFlavor image.Flavor),
        fl.categoryMatch && (!(f.name == iCategory) || fmatch f iCategory image.Category),
        fl.versionMatch && (!(f.name == iVersion) || fmatch f iVersion image.Version)⟩ := by
  obtain ⟨a, b, c⟩ := fl
  simp only [flagStep]
  generalize (f.name == iFlavor) = n1
  generalize (f.name == iCategory) = n2
  generalize (f.name == iVersion) = n3
  generalize fmatch f iFlavor image.Flavor = m1
  generalize fmatch f iCategory image.Category = m2
  generalize fmatch f iVersion image.Version = m3
  cases n1 <;> cases n2 <;> cases n3 <;> cases m1 <;> cases m2 <;> cases m3 <;>
    cases a <;> cases b <;> cases c <;> rfl

theorem matchFlags_foldl (fmatch : filter → String → String → Bool) (image : Image)
    (filters : List filter) (fl : Flags) :
    filters.foldl (flagStep fmatch image) fl =
      ⟨fl.flavorMatch &&
          filters.all (fun f => !(f.name == iFlavor) || fmatch f iFlavor image.Flavor),
        fl.categoryMatch &&
          filters.all (fun f => !(f.name == iCategory) || fmatch f iCategory image.Category),
        fl.versionMatch &&
          filters.all (fun f => !(f.name == iVersion) || fmatch f iVersion image.Version)⟩ := by
  induction filters generalizing fl with
  | nil => cases fl; simp
  | cons f rest ih =>
    rw [List.foldl_cons, ih, flagStep_eq]
    simp only [List.all_cons, Bool.and_assoc]

/-- The append condition of the loop body is the conjunction, over all predicates, of
`filterOk`: every predicate that names an image attribute must accept the image. -/
theorem imageMatches_eq_all (fmatch : filter → String → String → Bool)
    (filters : List filter) (image : Image) :
    imageMatches fmatch filters image = filters.all (filterOk fmatch image) := by
  unfold imageMatches matchFlags
  rw [matchFlags_foldl]
  induction filters with
  | nil => rfl
  | cons f rest ih =>
    simp only [List.length_cons, List.all_cons, filterOk, Bool.true_and] at ih ⊢
    have hlen : (rest.length + 1 == 0) = false := by simp
    rw [hlen, Bool.false_or]
    cases hr : rest with
    | nil => simp
    | cons g more =>
      rw [hr] at ih
      have hlen2 : ((g :: more).length == 0) = false := by simp
      rw [hlen2, Bool.false_or] at ih
      rw [← ih]
      generalize (!(f.name == iFlavor) || fmatch f iFlavor image.Flavor) = x1
      generalize (!(f.name == iCategory) || fmatch f iCategory image.Category) = x2
      generalize (!(f.name == iVersion) || fmatch f iVersion image.Version) = x3
      generalize ((g :: more).all fun f => !(f.name == iFlavor) || fmatch f iFlavor image.Flavor) = y1
      generalize ((g :: more).all fun f => !(f.name == iCategory) || fmatch f iCategory image.Category) = y2
      generalize ((g :: more).all fun f => !(f.name == iVersion) || fmatch f iVersion image.Version) = y3
      cases x1 <;> cases x2 <;> cases x3 <;> cases y1 <;> cases y2 <;> cases y3 <;> rfl

theorem imagesLoop_ok (getFilters : ResourceData → Except String (List filter))
    (fmatch : filter → String → String → Bool) (d : ResourceData) (filters : List filter)
    (hparse : getFilters d = .ok filters) (D : List Image) (acc : List ImageData) :
    imagesLoop getFilters fmatch d D acc =
      .ok (acc ++ (D.filter (imageMatches fmatch filters)).map iData) := by
  induction D generalizing acc with
  | nil => simp [imagesLoop]
  | cons image rest ih =>
    simp only [imagesLoop, hparse]
    by_cases hm : imageMatches fmatch filters image = true
    · simp [hm, ih, List.filter_cons]
    · simp [hm, ih, List.filter_cons]

theorem imagesLoop_error (getFilters : ResourceData → Except String (List filter))
    (fmatch : filter → String → String → Bool) (d : ResourceData) (err : String)
    (hparse : getFilters d = .error err) (image : Image) (rest : List Image)
    (acc : List ImageData) :
    imagesLoop getFilters fmatch d (image :: rest) acc = .error err := by
  simp [imagesLoop, hparse]

/-- What the read returns once parsing succeeded and the SDK accepts the list. -/
theorem dataSourceImageRead_ok (getFilters : ResourceData → Except String (List filter))
    (fmatch : filter → String → String → Bool) (setErr : List ImageData → Option String)
    (d : ResourceData) (p : Config) (filters : List filter)
    (hparse : getFilters d = .ok filters)
    (hset : setErr ((p.availableResources.Images.filter
      (imageMatches fmatch filters)).map iData) = none) :
    dataSourceImageRead getFilters fmatch setErr d p =
      ({ d with
          avImages := some ((p.availableResources.Images.filter
            (imageMatches fmatch filters)).map iData),
          id := some "images" }, none) := by
  unfold dataSourceImageRead
  simp only [imagesLoop_ok getFilters fmatch d filters hparse, List.nil_append, hset]

theorem iData_injective : Function.Injective iData := by
  intro a b h
  cases a; cases b
  simp only [iData, List.cons.injEq, Prod.mk.injEq, and_true, true_and] at h
  obtain ⟨h1, h2, h3, h4⟩ := h
  subst h1 h2 h3 h4
  rfl

theorem filterOk_of_name (fmatch : filter → String → String → Bool) (image : Image)
    (f : filter) (a : String) (ha : a = iFlavor ∨ a = iCategory ∨ a = iVersion)
    (hf : f.name = a) :
    filterOk fmatch image f = fmatch f a (attrValue a image) := by
  have h12 := iFlavor_ne_iCategory
  have h13 := iFlavor_ne_iVersion
  have h23 := iCategory_ne_iVersion
  have e12 : (iFlavor == iCategory) = false := by decide
  have e13 : (iFlavor == iVersion) = false := by decide
  have e23 : (iCategory == iVersion) = false := by decide
  have e21 : (iCategory == iFlavor) = false := by decide
  have e31 : (iVersion == iFlavor) = false := by decide
  have e32 : (iVersion == iCategory) = false := by decide
  rcases ha with h | h | h <;> subst h <;>
    simp [filterOk, attrValue, hf, h12, h13, h23, Ne.symm h12, Ne.symm h13, Ne.symm h23,
      e12, e13, e23, e21, e31, e32]

theorem filterOk_of_unknown (fmatch : filter → String → String → Bool) (image : Image)
    (f : filter) (hf : knownName f = false) : filterOk fmatch image f = true := by
  simp only [knownName, Bool.or_eq_false_iff] at hf
  obtain ⟨⟨h1, h2⟩, h3⟩ := hf
  simp [filterOk, h1, h2, h3]

theorem all_filterOk_filter_known (fmatch : filter → String → String → Bool)
    (image : Image) (filters : List filter) :
    (filters.filter knownName).all (filterOk fmatch image) =
      filters.all (filterOk fmatch image) := by
  induction filters with
  | nil => rfl
  | cons f rest ih =>
    cases hk : knownName f
    · simp [List.filter_cons, hk, ih, filterOk_of_unknown fmatch image f hk]
    · simp [List.filter_cons, hk, ih]

theorem all_filterOk_perm (fmatch : filter → String → String → Bool) (image : Image)
    (F F2 : List filter) (hperm : F.Perm F2) :
    F.all (filterOk fmatch image) = F2.all (filterOk fmatch image) := by
  rw [Bool.eq_iff_iff]
  simp only [List.all_eq_true]
  exact ⟨fun h f hf => h f (hperm.mem_iff.mpr hf), fun h f hf => h f (hperm.mem_iff.mp hf)⟩

/-! ## The claims -/

/-- C1, counterexample: with the single image `gpuImage` and two predicates on
`flavor`, one accepting `gpu` and one accepting `cpu`, the two predicates match
disjoint sets of images and their union holds `gpuImage`, yet the read returns the
empty list. -/
theorem same_name_union_fails :
    (∀ image ∈ [gpuImage],
      ¬ (memberMatch ⟨iFlavor, ["gpu"]⟩ iFlavor (attrValue iFlavor image) = true ∧
         memberMatch ⟨iFlavor, ["cpu"]⟩ iFlavor (attrValue iFlavor image) = true)) ∧
    ([gpuImage].filter (fun image =>
        memberMatch ⟨iFlavor, ["gpu"]⟩ iFlavor (attrValue iFlavor image) ||
        memberMatch ⟨iFlavor, ["cpu"]⟩ iFlavor (attrValue iFlavor image))).map iData
      = [iData gpuImage] ∧
    dataSourceImageRead (fun _ => .ok [⟨iFlavor, ["gpu"]⟩, ⟨iFlavor, ["cpu"]⟩])
        memberMatch setAlways freshData ⟨"https://portal", ⟨[gpuImage]⟩⟩ =
      (⟨[], some [], some "images"⟩, none) := by
  decide

/-- C1, amended: for every image list and every filter list made of two predicates
`p1`, `p2` that name the same attribute (flavor, category or version), the images
returned are exactly those matched by both `p1` and `p2`, in the order of the
inventory; when the two predicates match disjoint sets of images none is returned. -/
theorem same_name_predicates_are_conjoined
    (getFilters : ResourceData → Except String (List filter))
    (fmatch : filter → String → String → Bool) (setErr : List ImageData → Option String)
    (d : ResourceData) (p : Config) (p1 p2 : filter) (a : String)
    (ha : a = iFlavor ∨ a = iCategory ∨ a = iVersion)
    (h1 : p1.name = a) (h2 : p2.name = a)
    (hparse : getFilters d = .ok [p1, p2])
    (hset : setErr ((p.availableResources.Images.filter (fun image =>
      fmatch p1 a (attrValue a image) && fmatch p2 a (attrValue a image))).map iData)
        = none) :
    dataSourceImageRead getFilters fmatch setErr d p =
      ({ d with
          avImages := some ((p.availableResources.Images.filter (fun image =>
            fmatch p1 a (attrValue a image) && fmatch p2 a (attrValue a image))).map iData),
          id := some "images" }, none) ∧
    ((∀ image ∈ p.availableResources.Images,
        ¬ (fmatch p1 a (attrValue a image) = true ∧ fmatch p2 a (attrValue a image) = true)) →
      (p.availableResources.Images.filter (fun image =>
        fmatch p1 a (attrValue a image) && fmatch p2 a (attrValue a image))).map iData = []) := by
  have hfun : imageMatches fmatch [p1, p2] =
      fun image => fmatch p1 a (attrValue a image) && fmatch p2 a (attrValue a image) := by
    funext image
    rw [imageMatches_eq_all]
    simp [filterOk_of_name fmatch image p1 a ha h1, filterOk_of_name fmatch image p2 a ha h2]
  refine ⟨?_, ?_⟩
  · rw [← hfun] at hset ⊢
    exact dataSourceImageRead_ok getFilters fmatch setErr d p [p1, p2] hparse hset
  · intro hdisj
    rw [List.map_eq_nil_iff, List.filter_eq_nil_iff]
    intro image himage
    simpa using hdisj image himage

/-- Witness of `same_name_predicates_are_conjoined`: two predicates on `flavor`, one
accepting `gpu` and one accepting `gpu` or `cpu`, over the two scenario images. -/
theorem same_name_predicates_are_conjoined_witness :
    dataSourceImageRead (fun _ => .ok [⟨iFlavor, ["gpu"]⟩, ⟨iFlavor, ["gpu", "cpu"]⟩])
        memberMatch setAlways freshData scenarioConfig =
      (⟨[], some [iData gpuImage], some "images"⟩, none) :=
  (same_name_predicates_are_conjoined
    (fun _ => .ok [⟨iFlavor, ["gpu"]⟩, ⟨iFlavor, ["gpu", "cpu"]⟩])
    memberMatch setAlways freshData scenarioConfig
    ⟨iFlavor, ["gpu"]⟩ ⟨iFlavor, ["gpu", "cpu"]⟩ iFlavor (Or.inl rfl) rfl rfl rfl rfl).1

/-- C2: for every image list and every filter list made of one predicate `p1` on an
attribute `a` and one predicate `p2` on an attribute `b` (both among flavor, category,
version; the statement does not even need `a` and `b` to differ), the images returned
are exactly the images whose value for `a` is matched by `p1` and whose value for `b`
is matched by `p2`: an image of the inventory is returned if and only if both hold. -/
theorem different_names_are_conjoined
    (getFilters : ResourceData → Except String (List filter))
    (fmatch : filter → String → String → Bool) (setErr : List ImageData → Option String)
    (d : ResourceData) (p : Config) (p1 p2 : filter) (a b : String)
    (ha : a = iFlavor ∨ a = iCategory ∨ a = iVersion)
    (hb : b = iFlavor ∨ b = iCategory ∨ b = iVersion)
    (h1 : p1.name = a) (h2 : p2.name = b)
    (hparse : getFilters d = .ok [p1, p2])
    (hset : setErr ((p.availableResources.Images.filter (fun image =>
      fmatch p1 a (attrValue a image) && fmatch p2 b (attrValue b image))).map iData)
        = none) :
    dataSourceImageRead getFilters fmatch setErr d p =
      ({ d with
          avImages := some ((p.availableResources.Images.filter (fun image =>
            fmatch p1 a (attrValue a image) && fmatch p2 b (attrValue b image))).map iData),
          id := some "images" }, none) ∧
    ∀ image ∈ p.availableResources.Images,
      (iData image ∈ (p.availableResources.Images.filter (fun image =>
          fmatch p1 a (attrValue a image) && fmatch p2 b (attrValue b image))).map iData ↔
        (fmatch p1 a (attrValue a image) = true ∧
         fmatch p2 b (attrValue b image) = true)) := by
  have hfun : imageMatches fmatch [p1, p2] =
      fun image => fmatch p1 a (attrValue a image) && fmatch p2 b (attrValue b image) := by
    funext image
    rw [imageMatches_eq_all]
    simp [filterOk_of_name fmatch image p1 a ha h1, filterOk_of_name fmatch image p2 b hb h2]
  refine ⟨?_, ?_⟩
  · rw [← hfun] at hset ⊢
    exact dataSourceImageRead_ok getFilters fmatch setErr d p [p1, p2] hparse hset
  · intro image himage
    rw [List.mem_map]
    constructor
    · rintro ⟨image2, hmem, heq⟩
      have := iData_injective heq
      subst this
      simpa using (List.mem_filter.mp hmem).2
    · intro h
      exact ⟨image, List.mem_filter.mpr ⟨himage, by simpa using h⟩, rfl⟩

/-- Witness of `different_names_are_conjoined`: a predicate on `flavor` accepting
`cpu` and a predicate on `category` accepting `compute`, over the two scenario
images. -/
theorem different_names_are_conjoined_witness :
    dataSourceImageRead (fun _ => .ok [⟨iFlavor, ["cpu"]⟩, ⟨iCategory, ["compute"]⟩])
        memberMatch setAlways freshData scenarioConfig =
      (⟨[], some [iData cpuImage], some "images"⟩, none) :=
  (different_names_are_conjoined
    (fun _ => .ok [⟨iFlavor, ["cpu"]⟩, ⟨iCategory, ["compute"]⟩])
    memberMatch setAlways freshData scenarioConfig
    ⟨iFlavor, ["cpu"]⟩ ⟨iCategory, ["compute"]⟩ iFlavor iCategory
    (Or.inl rfl) (Or.inr (Or.inl rfl)) rfl rfl rfl rfl).1

/-- C3: when the parsed filter list is empty, the read returns one entry per image of
the inventory, in the same order and with the same length, and the entry of an image
carries that image's flavor, version, category and id. -/
theorem empty_filters_return_every_image
    (getFilters : ResourceData → Except String (List filter))
    (fmatch : filter → String → String → Bool) (setErr : List ImageData → Option String)
    (d : ResourceData) (p : Config)
    (hparse : getFilters d = .ok [])
    (hset : setErr (p.availableResources.Images.map iData) = none) :
    dataSourceImageRead getFilters fmatch setErr d p =
      ({ d with avImages := some (p.availableResources.Images.map iData),
                id := some "images" }, none) ∧
    (p.availableResources.Images.map iData).length = p.availableResources.Images.length ∧
    ∀ image : Image,
      (iData image).lookup iFlavor = some image.Flavor ∧
      (iData image).lookup iVersion = some image.Version ∧
      (iData image).lookup iCategory = some image.Category ∧
      (iData image).lookup "id" = some image.ID ∧
      (iData image).length = 4 := by
  have hall : p.availableResources.Images.filter (imageMatches fmatch []) =
      p.availableResources.Images := by
    rw [List.filter_eq_self]
    intro image _
    rfl
  refine ⟨?_, by simp, ?_⟩
  · have h := dataSourceImageRead_ok getFilters fmatch setErr d p [] hparse
      (by rw [hall]; exact hset)
    rw [hall] at h
    exact h
  · intro image
    have e1 : (iFlavor == iVersion) = false := by decide
    have e2 : (iVersion == iFlavor) = false := by decide
    have e3 : (iCategory == iFlavor) = false := by decide
    have e4 : (iCategory == iVersion) = false := by decide
    have e5 : ("id" == iFlavor) = false := by decide
    have e6 : ("id" == iVersion) = false := by decide
    have e7 : ("id" == iCategory) = false := by decide
    simp [iData, List.lookup, e1, e2, e3, e4, e5, e6, e7]

/-- Witness of `empty_filters_return_every_image`: the two scenario images with no
predicate at all. -/
theorem empty_filters_return_every_image_witness :
    dataSourceImageRead (fun _ => .ok []) memberMatch setAlways freshData scenarioConfig =
      (⟨[], some [iData gpuImage, iData cpuImage], some "images"⟩, none) :=
  (empty_filters_return_every_image (fun _ => .ok []) memberMatch setAlways freshData
    scenarioConfig rfl rfl).1

/-- C4: whenever parsing the filters succeeds, the list returned holds the entries of
exactly the images that satisfy the loop's append condition, in the order of the
inventory: it is the inventory filtered by the per-image condition, and the images so
selected form a sublist of the inventory. -/
theorem returned_images_are_stable_filter
    (getFilters : ResourceData → Except String (List filter))
    (fmatch : filter → String → String → Bool) (setErr : List ImageData → Option String)
    (d : ResourceData) (p : Config) (F : List filter)
    (hparse : getFilters d = .ok F)
    (hset : setErr ((p.availableResources.Images.filter
      (imageMatches fmatch F)).map iData) = none) :
    dataSourceImageRead getFilters fmatch setErr d p =
      ({ d with
          avImages := some ((p.availableResources.Images.filter
            (imageMatches fmatch F)).map iData),
          id := some "images" }, none) ∧
    (p.availableResources.Images.filter (imageMatches fmatch F)).Sublist
      p.availableResources.Images ∧
    ∀ image, imageMatches fmatch F image = F.all (filterOk fmatch image) :=
  ⟨dataSourceImageRead_ok getFilters fmatch setErr d p F hparse hset,
    List.filter_sublist _, fun image => imageMatches_eq_all fmatch F image⟩

/-- Witness of `returned_images_are_stable_filter`: one predicate on `flavor` accepting
`cpu`, over the two scenario images. -/
theorem returned_images_are_stable_filter_witness :
    dataSourceImageRead (fun _ => .ok [⟨iFlavor, ["cpu"]⟩]) memberMatch setAlways
        freshData scenarioConfig =
      (⟨[], some [iData cpuImage], some "images"⟩, none) :=
  (returned_images_are_stable_filter (fun _ => .ok [⟨iFlavor, ["cpu"]⟩]) memberMatch
    setAlways freshData scenarioConfig [⟨iFlavor, ["cpu"]⟩] rfl rfl).1

/-- C5, counterexample: on the non-empty inventory of the two scenario images, a filter
list holding a predicate named `region` does not make the read fail: no error is
returned and both images are. -/
theorem unknown_name_is_not_rejected :
    scenarioConfig.availableResources.Images ≠ [] ∧
    knownName ⟨"region", ["eu"]⟩ = false ∧
    dataSourceImageRead (fun _ => .ok [⟨"region", ["eu"]⟩]) memberMatch setAlways
        freshData scenarioConfig =
      (⟨[], some [iData gpuImage, iData cpuImage], some "images"⟩, none) := by
  decide

/-- C5, amended: a predicate whose name is not one of the image attributes (flavor,
category, version) is not rejected by the read. Whenever parsing the filters succeeds
the read returns no error and exactly the images it selects for the filter list with
those predicates removed. -/
theorem unknown_names_are_ignored
    (getFilters : ResourceData → Except String (List filter))
    (fmatch : filter → String → String → Bool) (setErr : List ImageData → Option String)
    (d : ResourceData) (p : Config) (F : List filter)
    (hparse : getFilters d = .ok F)
    (hset : setErr ((p.availableResources.Images.filter
      (imageMatches fmatch (F.filter knownName))).map iData) = none) :
    dataSourceImageRead getFilters fmatch setErr d p =
      ({ d with
          avImages := some ((p.availableResources.Images.filter
            (imageMatches fmatch (F.filter knownName))).map iData),
          id := some "images" }, none) := by
  have hfun : imageMatches fmatch (F.filter knownName) = imageMatches fmatch F := by
    funext image
    rw [imageMatches_eq_all, imageMatches_eq_all, all_filterOk_filter_known]
  rw [hfun] at hset ⊢
  exact dataSourceImageRead_ok getFilters fmatch setErr d p F hparse hset

/-- Witness of `unknown_names_are_ignored`: a predicate named `region` next to a
predicate on `flavor` accepting `gpu`, over the two scenario images. -/
theorem unknown_names_are_ignored_witness :
    dataSourceImageRead (fun _ => .ok [⟨"region", ["eu"]⟩, ⟨iFlavor, ["gpu"]⟩])
        memberMatch setAlways freshData scenarioConfig =
      (⟨[], some [iData gpuImage], some "images"⟩, none) :=
  unknown_names_are_ignored (fun _ => .ok [⟨"region", ["eu"]⟩, ⟨iFlavor, ["gpu"]⟩])
    memberMatch setAlways freshData scenarioConfig
    [⟨"region", ["eu"]⟩, ⟨iFlavor, ["gpu"]⟩] rfl rfl

/-- C6: for two filter lists that are permutations of each other, the read returns
the same sequence of images, in the same order, and no error in either case. -/
theorem predicate_order_is_irrelevant
    (getFilters : ResourceData → Except String (List filter))
    (fmatch : filter → String → String → Bool) (setErr : List ImageData → Option String)
    (d d2 : ResourceData) (p : Config) (F F2 : List filter)
    (hparse : getFilters d = .ok F) (hparse2 : getFilters d2 = .ok F2)
    (hperm : F.Perm F2)
    (hset : setErr ((p.availableResources.Images.filter
      (imageMatches fmatch F)).map iData) = none) :
    (dataSourceImageRead getFilters fmatch setErr d p).1.avImages =
      (dataSourceImageRead getFilters fmatch setErr d2 p).1.avImages ∧
    (dataSourceImageRead getFilters fmatch setErr d p).1.avImages =
      some ((p.availableResources.Images.filter (imageMatches fmatch F)).map iData) ∧
    (dataSourceImageRead getFilters fmatch setErr d p).2 = none ∧
    (dataSourceImageRead getFilters fmatch setErr d2 p).2 = none := by
  have hfun : imageMatches fmatch F2 = imageMatches fmatch F := by
    funext image
    rw [imageMatches_eq_all, imageMatches_eq_all]
    exact (all_filterOk_perm fmatch image F F2 hperm).symm
  have hset2 : setErr ((p.availableResources.Images.filter
      (imageMatches fmatch F2)).map iData) = none := by rw [hfun]; exact hset
  rw [dataSourceImageRead_ok getFilters fmatch setErr d p F hparse hset,
    dataSourceImageRead_ok getFilters fmatch setErr d2 p F2 hparse2 hset2, hfun]
  exact ⟨rfl, rfl, rfl, rfl⟩

/-- Witness of `predicate_order_is_irrelevant`: the resource data decides the order in
which a predicate on `flavor` and a predicate on `category` are parsed. -/
theorem predicate_order_is_irrelevant_witness :
    (dataSourceImageRead
        (fun d => if d.id = none then .ok [⟨iFlavor, ["cpu"]⟩, ⟨iCategory, ["compute"]⟩]
          else .ok [⟨iCategory, ["compute"]⟩, ⟨iFlavor, ["cpu"]⟩])
        memberMatch setAlways freshData scenarioConfig).1.avImages =
      (dataSourceImageRead
        (fun d => if d.id = none then .ok [⟨iFlavor, ["cpu"]⟩, ⟨iCategory, ["compute"]⟩]
          else .ok [⟨iCategory, ["compute"]⟩, ⟨iFlavor, ["cpu"]⟩])
        memberMatch setAlways ⟨[], none, some "images"⟩ scenarioConfig).1.avImages :=
  (predicate_order_is_irrelevant
    (fun d => if d.id = none then .ok [⟨iFlavor, ["cpu"]⟩, ⟨iCategory, ["compute"]⟩]
      else .ok [⟨iCategory, ["compute"]⟩, ⟨iFlavor, ["cpu"]⟩])
    memberMatch setAlways freshData ⟨[], none, some "images"⟩ scenarioConfig
    [⟨iFlavor, ["cpu"]⟩, ⟨iCategory, ["compute"]⟩]
    [⟨iCategory, ["compute"]⟩, ⟨iFlavor, ["cpu"]⟩] rfl rfl
    (List.Perm.swap _ _ _) rfl).1

/-- C7: two images of the inventory that agree on every image attribute named by some
predicate of the filter list (and may differ on everything else, the id included) are
either both returned or both left out. -/
theorem unnamed_attributes_never_exclude
    (getFilters : ResourceData → Except String (List filter))
    (fmatch : filter → String → String → Bool) (setErr : List ImageData → Option String)
    (d : ResourceData) (p : Config) (F : List filter) (i1 i2 : Image)
    (hparse : getFilters d = .ok F)
    (hset : setErr ((p.availableResources.Images.filter
      (imageMatches fmatch F)).map iData) = none)
    (hagree : ∀ f ∈ F,
      (f.name = iFlavor → i1.Flavor = i2.Flavor) ∧
      (f.name = iCategory → i1.Category = i2.Category) ∧
      (f.name = iVersion → i1.Version = i2.Version))
    (hi1 : i1 ∈ p.availableResources.Images) (hi2 : i2 ∈ p.availableResources.Images) :
    dataSourceImageRead getFilters fmatch setErr d p =
      ({ d with
          avImages := some ((p.availableResources.Images.filter
            (imageMatches fmatch F)).map iData),
          id := some "images" }, none) ∧
    (iData i1 ∈ (p.availableResources.Images.filter (imageMatches fmatch F)).map iData ↔
      iData i2 ∈ (p.availableResources.Images.filter (imageMatches fmatch F)).map iData) ∧
    imageMatches fmatch F i1 = imageMatches fmatch F i2 := by
  have hsame : imageMatches fmatch F i1 = imageMatches fmatch F i2 := by
    have hstep : ∀ f ∈ F, filterOk fmatch i1 f = filterOk fmatch i2 f := by
      intro f hf
      obtain ⟨a1, a2, a3⟩ := hagree f hf
      have c1 : (!(f.name == iFlavor) || fmatch f iFlavor i1.Flavor) =
          (!(f.name == iFlavor) || fmatch f iFlavor i2.Flavor) := by
        by_cases n : f.name = iFlavor
        · rw [a1 n]
        · rw [beq_eq_false_iff_ne.mpr n]; rfl
      have c2 : (!(f.name == iCategory) || fmatch f iCategory i1.Category) =
          (!(f.name == iCategory) || fmatch f iCategory i2.Category) := by
        by_cases n : f.name = iCategory
        · rw [a2 n]
        · rw [beq_eq_false_iff_ne.mpr n]; rfl
      have c3 : (!(f.name == iVersion) || fmatch f iVersion i1.Version) =
          (!(f.name == iVersion) || fmatch f iVersion i2.Version) := by
        by_cases n : f.name = iVersion
        · rw [a3 n]
        · rw [beq_eq_false_iff_ne.mpr n]; rfl
      unfold filterOk
      rw [c1, c2, c3]
    rw [imageMatches_eq_all, imageMatches_eq_all, Bool.eq_iff_iff]
    simp only [List.all_eq_true]
    exact ⟨fun h f hf => (hstep f hf) ▸ h f hf, fun h f hf => (hstep f hf).symm ▸ h f hf⟩
  have hmem : ∀ i ∈ p.availableResources.Images,
      (iData i ∈ (p.availableResources.Images.filter (imageMatches fmatch F)).map iData ↔
        imageMatches fmatch F i = true) := by
    intro i hi
    rw [List.mem_map]
    constructor
    · rintro ⟨j, hj, heq⟩
      have := iData_injective heq
      subst this
      exact (List.mem_filter.mp hj).2
    · intro h
      exact ⟨i, List.mem_filter.mpr ⟨hi, h⟩, rfl⟩
  refine ⟨dataSourceImageRead_ok getFilters fmatch setErr d p F hparse hset, ?_, hsame⟩
  rw [hmem i1 hi1, hmem i2 hi2, hsame]

/-- Witness of `unnamed_attributes_never_exclude`: the two scenario images differ in
flavor and id and agree on category, the only attribute named. -/
theorem unnamed_attributes_never_exclude_witness :
    (iData gpuImage ∈ (scenarioConfig.availableResources.Images.filter
        (imageMatches memberMatch [⟨iCategory, ["compute"]⟩])).map iData ↔
      iData cpuImage ∈ (scenarioConfig.availableResources.Images.filter
        (imageMatches memberMatch [⟨iCategory, ["compute"]⟩])).map iData) :=
  (unnamed_attributes_never_exclude (fun _ => .ok [⟨iCategory, ["compute"]⟩]) memberMatch
    setAlways freshData scenarioConfig [⟨iCategory, ["compute"]⟩] gpuImage cpuImage
    rfl rfl (by decide) (by decide) (by decide)).2.1

/-- C8: on the inventory of the two scenario images, with one predicate on flavor
with values gpu and cpu and one predicate on category with value compute, a predicate
matching a value of its own attribute exactly when the value is among its values, the
read returns the two entries `i1`, `i2` in that order. -/
theorem scenario_B_returns_both_images
    (getFilters : ResourceData → Except String (List filter))
    (fmatch : filter → String → String → Bool) (setErr : List ImageData → Option String)
    (d : ResourceData) (p : Config)
    (hinv : p.availableResources.Images =
      [⟨"gpu", "compute", "1.0", "i1"⟩, ⟨"cpu", "compute", "1.0", "i2"⟩])
    (hparse : getFilters d = .ok [⟨"flavor", ["gpu", "cpu"]⟩, ⟨"category", ["compute"]⟩])
    (hm : ∀ (f : filter) (v : String), fmatch f f.name v = decide (v ∈ f.values))
    (hset : setErr
      [[("flavor", "gpu"), ("version", "1.0"), ("category", "compute"), ("id", "i1")],
       [("flavor", "cpu"), ("version", "1.0"), ("category", "compute"), ("id", "i2")]]
        = none) :
    dataSourceImageRead getFilters fmatch setErr d p =
      ({ d with
          avImages := some
            [[("flavor", "gpu"), ("version", "1.0"), ("category", "compute"), ("id", "i1")],
             [("flavor", "cpu"), ("version", "1.0"), ("category", "compute"), ("id", "i2")]],
          id := some "images" }, none) := by
  have m1 : fmatch ⟨"flavor", ["gpu", "cpu"]⟩ iFlavor "gpu" = true := by
    rw [show iFlavor = (⟨"flavor", ["gpu", "cpu"]⟩ : filter).name from rfl, hm]; decide
  have m2 : fmatch ⟨"flavor", ["gpu", "cpu"]⟩ iFlavor "cpu" = true := by
    rw [show iFlavor = (⟨"flavor", ["gpu", "cpu"]⟩ : filter).name from rfl, hm]; decide
  have m3 : fmatch ⟨"category", ["compute"]⟩ iCategory "compute" = true := by
    rw [show iCategory = (⟨"category", ["compute"]⟩ : filter).name from rfl, hm]; decide
  have e1 : ("flavor" == iFlavor) = true := by decide
  have e2 : ("flavor" == iCategory) = false := by decide
  have e3 : ("flavor" == iVersion) = false := by decide
  have e4 : ("category" == iFlavor) = false := by decide
  have e5 : ("category" == iCategory) = true := by decide
  have e6 : ("category" == iVersion) = false := by decide
  have k1 : imageMatches fmatch [⟨"flavor", ["gpu", "cpu"]⟩, ⟨"category", ["compute"]⟩]
      ⟨"gpu", "compute", "1.0", "i1"⟩ = true := by
    rw [imageMatches_eq_all]
    simp [filterOk, m1, m3, e1, e2, e3, e4, e5, e6]
  have k2 : imageMatches fmatch [⟨"flavor", ["gpu", "cpu"]⟩, ⟨"category", ["compute"]⟩]
      ⟨"cpu", "compute", "1.0", "i2"⟩ = true := by
    rw [imageMatches_eq_all]
    simp [filterOk, m2, m3, e1, e2, e3, e4, e5, e6]
  have hlist : (p.availableResources.Images.filter (imageMatches fmatch
      [⟨"flavor", ["gpu", "cpu"]⟩, ⟨"category", ["compute"]⟩])).map iData =
      [[("flavor", "gpu"), ("version", "1.0"), ("category", "compute"), ("id", "i1")],
       [("flavor", "cpu"), ("version", "1.0"), ("category", "compute"), ("id", "i2")]] := by
    rw [hinv, List.filter_cons, k1, List.filter_cons, k2]
    rfl
  have h := dataSourceImageRead_ok getFilters fmatch setErr d p _ hparse
    (by rw [hlist]; exact hset)
  rw [hlist] at h
  exact h

/-- Witness of `scenario_B_returns_both_images`: membership matching, a parser that
yields the two predicates of the scenario, and an SDK that accepts the list. -/
theorem scenario_B_returns_both_images_witness :
    dataSourceImageRead
        (fun _ => .ok [⟨"flavor", ["gpu", "cpu"]⟩, ⟨"category", ["compute"]⟩])
        memberMatch setAlways freshData scenarioConfig =
      (⟨[], some
          [[("flavor", "gpu"), ("version", "1.0"), ("category", "compute"), ("id", "i1")],
           [("flavor", "cpu"), ("version", "1.0"), ("category", "compute"), ("id", "i2")]],
        some "images"⟩, none) :=
  scenario_B_returns_both_images
    (fun _ => .ok [⟨"flavor", ["gpu", "cpu"]⟩, ⟨"category", ["compute"]⟩])
    memberMatch setAlways freshData scenarioConfig rfl rfl (fun _ _ => rfl) rfl

/-- C9: when the configuration object is built and the first refresh of the available
resources returns an error, `ConfigureFunc` returns that error with a nil
configuration; when the refresh returns no error it returns the refreshed
configuration with a nil error; hence a configuration is returned only when the
refresh succeeded. -/
theorem configure_aborts_on_refresh_failure
    (NewConfig : Bool → String → Except String Config)
    (refreshAvailableResources : Config → Config × Option String)
    (TerraformVersion : String) (d : ProviderData) (config : Config)
    (hcfg : NewConfig d.gl_token d.portal_url = .ok config) :
    (∀ err, (refreshAvailableResources config).2 = some err →
      (ConfigureFunc NewConfig refreshAvailableResources TerraformVersion d).2 =
        (none, some err)) ∧
    ((refreshAvailableResources config).2 = none →
      (ConfigureFunc NewConfig refreshAvailableResources TerraformVersion d).2 =
        (some (refreshAvailableResources config).1, none)) ∧
    (∀ c, (ConfigureFunc NewConfig refreshAvailableResources TerraformVersion d).2.1 =
        some c →
      (refreshAvailableResources config).2 = none ∧
      (ConfigureFunc NewConfig refreshAvailableResources TerraformVersion d).2.2 = none) := by
  unfold ConfigureFunc
  simp only [hcfg]
  rcases hr : refreshAvailableResources config with ⟨c1, _ | e⟩
  · simp
  · simp

/-- Witness of `configure_aborts_on_refresh_failure`: the configuration is built and
the refresh fails with `fetch failed`. -/
theorem configure_aborts_on_refresh_failure_witness :
    (ConfigureFunc (fun _ url => .ok ⟨url, ⟨[]⟩⟩) (fun c => (c, some "fetch failed"))
      "" ⟨false, "https://portal"⟩).2 = (none, some "fetch failed") :=
  (configure_aborts_on_refresh_failure (fun _ url => .ok ⟨url, ⟨[]⟩⟩)
    (fun c => (c, some "fetch failed")) "" ⟨false, "https://portal"⟩
    ⟨"https://portal", ⟨[]⟩⟩ rfl).1 "fetch failed" rfl

/-- C10, the code at the failing input: with a parser that rejects the caller's
filters, the read over an empty inventory returns no error and stores the empty list
and the id `images`; over the two scenario images the same call returns the parser's
error and leaves the resource data untouched. -/
theorem filter_error_lost_on_empty_inventory :
    dataSourceImageRead (fun _ => .error "invalid filter") memberMatch setAlways
        ⟨[("flavor", ["("])], none, none⟩ emptyConfig =
      (⟨[("flavor", ["("])], some [], some "images"⟩, none) ∧
    dataSourceImageRead (fun _ => .error "invalid filter") memberMatch setAlways
        ⟨[("flavor", ["("])], none, none⟩ scenarioConfig =
      (⟨[("flavor", ["("])], none, none⟩, some "invalid filter") := by
  decide

end quake
